import Mathlib

/-! # python-lz4f.c : the LZ4 frame bindings

A shallow embedding of `src/python-lz4f.c`.  The file is a thin CPython
binding over the LZ4 frame library (`lz4frame.h`).  The library itself is
not part of the file, so its entry points are carried as a record of
functions (`LZ4F`); the binding code is embedded on top of that record.

C integers are mathematical integers reduced explicitly: `int` and
`unsigned int` are 32 bits wide, `size_t` and `Py_ssize_t` 64 bits wide.
-/

namespace PythonLz4f

/-! ## Machine integers -/

/-- Value of a mathematical integer stored in a C `int` (two's complement, 32 bits). -/
def wrapInt32 (x : Int) : Int := (x + 2 ^ 31) % 2 ^ 32 - 2 ^ 31

/-- Value of a mathematical integer stored in a C `unsigned int` (32 bits). -/
def wrapUInt32 (x : Int) : Int := x % 2 ^ 32

/-- Value of a C integer converted to `size_t` (64 bits). -/
def toSizeT (x : Int) : Nat := (x % 2 ^ 64).toNat

/-- The C expression `a << s` on `int` operands.  For a count `0 ≤ s < 32`
it is the product `a * 2^s` reduced to 32 bits.  C leaves every other count
undefined; the embedding then follows the compiled code, whose shift
instruction uses the low five bits of the count, that is `s` modulo 32 (a
count of 32 shifts by 0, a count of -2 shifts by 30). -/
def shl32 (a s : Int) : Int := wrapInt32 (a * 2 ^ (s % 32).toNat)

/-! ## The block size table -/

/-- Embedding of
`static int LZ4S_GetBlockSize_FromBlockId (int id) { return (1 << (8 + (2 * id))); }`
with every intermediate `int` result reduced to 32 bits. -/
def LZ4S_GetBlockSize_FromBlockId (id : Int) : Int :=
  shl32 1 (wrapInt32 (8 + wrapInt32 (2 * id)))

/-! ## Python objects -/

/-- A byte. -/
abbrev Byte := Fin 256

/-- Memory reached through a `char*`: the byte found at each offset. -/
abbrev Mem := Nat → Byte

/-- The Python objects the binding hands back.  `NULL` is the C null pointer
(an exception is pending), `Py_None` the `None` singleton, and `PyCObject`
wraps the `void*` of a library context. -/
inductive PyObject (Ctx : Type) where
  | NULL : PyObject Ctx
  | Py_None : PyObject Ctx
  | PyInt (n : Nat) : PyObject Ctx
  | PyBytes (b : List Byte) : PyObject Ctx
  | PyCObject (p : Ctx) : PyObject Ctx
  | PyDict (items : List (String × PyObject Ctx)) : PyObject Ctx

/-- The `n` bytes found at `p`. -/
def readBytes (p : Mem) (n : Nat) : List Byte := (List.range n).map p

/-- CPython `PyBytes_FromStringAndSize(p, size)`: a bytes object holding a copy
of the `size` bytes at `p`.  The parameter is a `Py_ssize_t`, so a `size_t`
of `2^63` or more arrives negative, and CPython then raises `SystemError` and
returns `NULL`. -/
def PyBytes_FromStringAndSize {Ctx : Type} (p : Mem) (size : Nat) : PyObject Ctx :=
  if size < 2 ^ 63 then .PyBytes (readBytes p size) else .NULL

/-- CPython `PyInt_FromSize_t`. -/
def PyInt_FromSize_t {Ctx : Type} (n : Nat) : PyObject Ctx := .PyInt n

/-- CPython `PyCObject_FromVoidPtr(p, NULL)`. -/
def PyCObject_FromVoidPtr {Ctx : Type} (p : Ctx) : PyObject Ctx := .PyCObject p

/-- CPython `PyDict_New()`. -/
def PyDict_New {Ctx : Type} : PyObject Ctx := .PyDict []

/-- CPython `PyDict_SetItemString(d, key, v)`: binds `key` to `v`, replacing
an earlier binding of `key`. -/
def PyDict_SetItemString {Ctx : Type} (d : PyObject Ctx) (key : String) (v : PyObject Ctx) :
    PyObject Ctx :=
  match d with
  | .PyDict items =>
    if items.any (fun kv => kv.1 == key) then
      .PyDict (items.map (fun kv => if kv.1 == key then (key, v) else kv))
    else
      .PyDict (items ++ [(key, v)])
  | other => other

/-- CPython `PyDict_GetItemString(d, key)`: the object bound to `key`, if any. -/
def PyDict_GetItemString {Ctx : Type} (d : PyObject Ctx) (key : String) :
    Option (PyObject Ctx) :=
  match d with
  | .PyDict items => (items.find? (fun kv => kv.1 == key)).map (fun kv => kv.2)
  | _ => none

/-! ## The LZ4 frame library (`lz4frame.h`) -/

/-- The fields of `LZ4F_frameInfo_t`. -/
structure LZ4F_frameInfo_t where
  blockSizeID : Nat
  blockMode : Nat
  contentChecksumFlag : Nat

/-- What `LZ4F_compressFrame(dest, dest_size, source, ssrc_size, NULL)` leaves
behind: the memory at `dest` and the returned `size_t`. -/
structure CompressFrameResult where
  dest : Mem
  ret : Nat

/-- What `LZ4F_getFrameInfo(dCtx, &frameInfo, source, &ssrc_size)` leaves
behind: the returned code, the contents of `frameInfo`, the updated
`ssrc_size` and the state of the context. -/
structure GetFrameInfoResult (Ctx : Type) where
  err : Nat
  frameInfo : LZ4F_frameInfo_t
  srcSize : Nat
  ctx : Ctx

/-- What `LZ4F_decompress(dCtx, dest, &dest_size, source, &ssrc_size, NULL)`
leaves behind: the returned `size_t`, the memory at `dest`, the updated
`dest_size` and `ssrc_size`, and the state of the context. -/
structure DecompressResult (Ctx : Type) where
  ret : Nat
  dest : Mem
  dstSize : Nat
  srcSize : Nat
  ctx : Ctx

/-- The entry points of `lz4frame.h` that the binding calls.  A source buffer
and its size travel together as a list of bytes; a destination buffer is
given by its capacity. -/
structure LZ4F (Ctx : Type) where
  LZ4F_VERSION : Nat
  LZ4F_isError : Nat → Bool
  LZ4F_createCompressionContext : Nat → Nat × Ctx
  LZ4F_createDecompressionContext : Nat → Nat × Ctx
  LZ4F_compressFrameBound : Nat → Nat
  LZ4F_compressFrame : Nat → List Byte → CompressFrameResult
  LZ4F_getFrameInfo : Ctx → List Byte → GetFrameInfoResult Ctx
  LZ4F_decompress : Ctx → Nat → List Byte → DecompressResult Ctx

/-! ## The binding

Each function is embedded from the point where `PyArg_ParseTuple` has
succeeded: `source` is the parsed buffer (`src_size` is its length), `dCtx`
the context held by the `py_dCtx` capsule, and `blkID` the optional keyword
argument.  The text that `CHECK` prints on the error path is not modelled,
and `malloc` is taken to succeed. -/

section Binding

variable {Ctx : Type}

/-- Embedding of `py_lz4f_compressFrame`. -/
def py_lz4f_compressFrame (L : LZ4F Ctx) (source : List Byte) : PyObject Ctx :=
  let ssrc_size := source.length
  let dest_size := L.LZ4F_compressFrameBound ssrc_size
  let r := L.LZ4F_compressFrame dest_size source
  PyBytes_FromStringAndSize r.dest r.ret

/-- Embedding of `py_lz4f_createDecompressionContext`. -/
def py_lz4f_createDecompressionContext (L : LZ4F Ctx) : PyObject Ctx :=
  let r := L.LZ4F_createDecompressionContext L.LZ4F_VERSION
  if L.LZ4F_isError r.1 then .Py_None else PyCObject_FromVoidPtr r.2

/-- Embedding of `py_lz4f_getFrameInfo`: the returned object and the state of
the context after the call. -/
def py_lz4f_getFrameInfo (L : LZ4F Ctx) (source : List Byte) (dCtx : Ctx) :
    PyObject Ctx × Ctx :=
  let result : PyObject Ctx := PyDict_New
  let r := L.LZ4F_getFrameInfo dCtx source
  if L.LZ4F_isError r.err then (.Py_None, r.ctx)
  else
    let blkSize : PyObject Ctx := PyInt_FromSize_t r.frameInfo.blockSizeID
    let blkMode : PyObject Ctx := PyInt_FromSize_t r.frameInfo.blockMode
    let result := PyDict_SetItemString result "blkSize" blkSize
    let result := PyDict_SetItemString result "blkMode" blkMode
    (result, r.ctx)

/-- The `dest_size` of `pass_lz4f_decompress` at the `malloc`: the keyword
argument lands in `unsigned int blkID` (initialised to 7), is converted to the
`int` parameter of `LZ4S_GetBlockSize_FromBlockId`, and the `int` result is
converted to `size_t`. -/
def decompress_dest_size (blkID : Option Int) : Nat :=
  let blkID : Int := wrapUInt32 (blkID.getD 7)
  toSizeT (LZ4S_GetBlockSize_FromBlockId (wrapInt32 blkID))

/-- Embedding of `pass_lz4f_decompress` (Python name `decompressFrame`): the
returned object and the state of the context after the call. -/
def pass_lz4f_decompress (L : LZ4F Ctx) (source : List Byte) (dCtx : Ctx)
    (blkID : Option Int) : PyObject Ctx × Ctx :=
  let result : PyObject Ctx := PyDict_New
  let dest_size := decompress_dest_size blkID
  let r := L.LZ4F_decompress dCtx dest_size source
  if L.LZ4F_isError r.ret then (.Py_None, r.ctx)
  else
    let decomp : PyObject Ctx := PyBytes_FromStringAndSize r.dest r.dstSize
    let next : PyObject Ctx := PyInt_FromSize_t r.ret
    let result := PyDict_SetItemString result "decomp" decomp
    let result := PyDict_SetItemString result "next" next
    (result, r.ctx)

end Binding

/-! ## Stand-ins for the library

Small executable instances of `LZ4F`, used to run the binding on concrete
inputs.  `storedCodec` keeps the payload uncompressed behind a seven byte
frame header. -/

/-- The frame magic number `0x184D2204`, little endian. -/
def frameMagic : List Byte := [0x04, 0x22, 0x4D, 0x18]

/-- The header `storedCodec` writes: magic, FLG, BD (block size id 7), HC. -/
def storedHeader : List Byte := frameMagic ++ [0x60, 0x70, 0x73]

/-- The memory holding the bytes `l`, zero elsewhere. -/
def memOf (l : List Byte) : Mem := fun i => l.getD i 0

/-- The code `storedCodec` returns for a failure, `(size_t)-1`. -/
def storedError : Nat := 2 ^ 64 - 1

/-- Whether `src` starts with a whole frame header. -/
def hasHeader (src : List Byte) : Bool := src.take 4 == frameMagic && 7 ≤ src.length

/-- A stand-in codec that stores the payload as it is.  Context state 0 waits
for a header, state 1 is past it.  The decoder copies as much payload as the
destination holds and returns the count of payload bytes left over. -/
def storedCodec : LZ4F Nat where
  LZ4F_VERSION := 100
  LZ4F_isError := fun c => decide (2 ^ 64 - 64 < c)
  LZ4F_createCompressionContext := fun _ => (0, 0)
  LZ4F_createDecompressionContext := fun _ => (0, 0)
  LZ4F_compressFrameBound := fun n => n + 7
  LZ4F_compressFrame := fun cap src =>
    if cap < src.length + 7 then { dest := memOf [], ret := storedError }
    else { dest := memOf (storedHeader ++ src), ret := src.length + 7 }
  LZ4F_getFrameInfo := fun ctx src =>
    if ctx = 0 && hasHeader src then
      { err := 0
        frameInfo :=
          { blockSizeID := (src.getD 5 0).val / 16 % 8
            blockMode := (src.getD 4 0).val / 32 % 2
            contentChecksumFlag := (src.getD 4 0).val / 4 % 2 }
        srcSize := 7
        ctx := 1 }
    else
      { err := storedError
        frameInfo := { blockSizeID := 170, blockMode := 170, contentChecksumFlag := 170 }
        srcSize := 0
        ctx := ctx }
  LZ4F_decompress := fun ctx cap src =>
    if ctx = 0 && !hasHeader src then
      { ret := storedError, dest := memOf [], dstSize := 0, srcSize := 0, ctx := ctx }
    else
      let payload := if ctx = 0 then src.drop 7 else src
      let n := min cap payload.length
      { ret := payload.length - n
        dest := memOf (payload.take n)
        dstSize := n
        srcSize := src.length - (payload.length - n)
        ctx := 1 }

/-- The stand-in codec with a decoder that writes nothing and returns the
capacity of the destination it was handed. -/
def capacityProbe : LZ4F Nat :=
  { storedCodec with
    LZ4F_decompress := fun ctx cap _ =>
      { ret := cap, dest := memOf [], dstSize := 0, srcSize := 0, ctx := ctx } }

/-! ## Facts shared by the theorems -/

section Shared

variable {Ctx : Type}

/-- On ids 0..11 every intermediate value fits an `int` and the result is the
exact power of two. -/
theorem blockSize_exact (id : Int) (h0 : 0 ≤ id) (h1 : id ≤ 11) :
    LZ4S_GetBlockSize_FromBlockId id = 2 ^ (8 + 2 * id.toNat) := by
  interval_cases id <;> decide

/-- On ids 0..11 the `malloc` size of `pass_lz4f_decompress` is the exact power of two. -/
theorem dest_size_exact (id : Int) (h0 : 0 ≤ id) (h1 : id ≤ 11) :
    decompress_dest_size (some id) = 2 ^ (8 + 2 * id.toNat) := by
  interval_cases id <;> decide

/-- The default `blkID` of 7 allocates 4 MiB. -/
theorem dest_size_default : decompress_dest_size none = 4194304 := by decide

/-- The dictionary `pass_lz4f_decompress` builds on success. -/
theorem decompress_dict (v w : PyObject Ctx) :
    PyDict_SetItemString (PyDict_SetItemString PyDict_New "decomp" v) "next" w
      = .PyDict [("decomp", v), ("next", w)] := rfl

/-- The dictionary `py_lz4f_getFrameInfo` builds on success. -/
theorem frameInfo_dict (v w : PyObject Ctx) :
    PyDict_SetItemString (PyDict_SetItemString PyDict_New "blkSize" v) "blkMode" w
      = .PyDict [("blkSize", v), ("blkMode", w)] := rfl

/-- The two exits of `pass_lz4f_decompress`. -/
theorem pass_lz4f_decompress_eq (L : LZ4F Ctx) (source : List Byte) (dCtx : Ctx)
    (blkID : Option Int) :
    pass_lz4f_decompress L source dCtx blkID =
      if L.LZ4F_isError (L.LZ4F_decompress dCtx (decompress_dest_size blkID) source).ret then
        (.Py_None, (L.LZ4F_decompress dCtx (decompress_dest_size blkID) source).ctx)
      else
        (.PyDict
          [("decomp", PyBytes_FromStringAndSize
              (L.LZ4F_decompress dCtx (decompress_dest_size blkID) source).dest
              (L.LZ4F_decompress dCtx (decompress_dest_size blkID) source).dstSize),
           ("next", .PyInt (L.LZ4F_decompress dCtx (decompress_dest_size blkID) source).ret)],
         (L.LZ4F_decompress dCtx (decompress_dest_size blkID) source).ctx) := by
  unfold pass_lz4f_decompress
  simp only [decompress_dict, PyInt_FromSize_t]

/-- The two exits of `py_lz4f_getFrameInfo`. -/
theorem py_lz4f_getFrameInfo_eq (L : LZ4F Ctx) (source : List Byte) (dCtx : Ctx) :
    py_lz4f_getFrameInfo L source dCtx =
      if L.LZ4F_isError (L.LZ4F_getFrameInfo dCtx source).err then
        (.Py_None, (L.LZ4F_getFrameInfo dCtx source).ctx)
      else
        (.PyDict
          [("blkSize", .PyInt (L.LZ4F_getFrameInfo dCtx source).frameInfo.blockSizeID),
           ("blkMode", .PyInt (L.LZ4F_getFrameInfo dCtx source).frameInfo.blockMode)],
         (L.LZ4F_getFrameInfo dCtx source).ctx) := by
  unfold py_lz4f_getFrameInfo
  simp only [frameInfo_dict, PyInt_FromSize_t]

theorem readBytes_length (p : Mem) (n : Nat) : (readBytes p n).length = n := by
  simp [readBytes]

theorem readBytes_getElem (p : Mem) (n i : Nat) (h : i < (readBytes p n).length) :
    (readBytes p n)[i] = p i := by
  simp [readBytes]

/-- The shift count of the table is even whatever the id. -/
theorem wrapInt32_even (x : Int) : wrapInt32 (8 + wrapInt32 (2 * x)) % 2 = 0 := by
  unfold wrapInt32
  norm_num
  omega

/-- A left shift of 1 by an even count stays within 0 and `2^30`. -/
theorem shl32_one_range (s : Int) (hs : s % 2 = 0) : 0 ≤ shl32 1 s ∧ shl32 1 s ≤ 2 ^ 30 := by
  unfold shl32
  have hlt : (s % 32).toNat < 32 := by omega
  have heven : (s % 32).toNat % 2 = 0 := by omega
  generalize (s % 32).toNat = n at hlt heven
  interval_cases n <;> first | omega | decide

/-- Whatever the `blkID`, the `malloc` size of `pass_lz4f_decompress` is at most `2^30`. -/
theorem decompress_dest_size_le (blkID : Option Int) : decompress_dest_size blkID ≤ 2 ^ 30 := by
  unfold decompress_dest_size LZ4S_GetBlockSize_FromBlockId
  have h := shl32_one_range _ (wrapInt32_even (wrapInt32 (wrapUInt32 (blkID.getD 7))))
  simp only [toSizeT]
  omega

/-- The bytes returned under `decomp` are as many as the decoder reported, so
no more than the allocated size when the decoder kept within it. -/
theorem decomp_length_le (L : LZ4F Ctx) (source : List Byte) (dCtx : Ctx)
    (blkID : Option Int) (bs : List Byte)
    (hdec : (L.LZ4F_decompress dCtx (decompress_dest_size blkID) source).dstSize
      ≤ decompress_dest_size blkID)
    (hres : PyDict_GetItemString (pass_lz4f_decompress L source dCtx blkID).1 "decomp"
      = some (.PyBytes bs)) :
    bs.length ≤ decompress_dest_size blkID := by
  rw [pass_lz4f_decompress_eq] at hres
  split at hres
  · simp [PyDict_GetItemString] at hres
  · simp only [PyDict_GetItemString, PyBytes_FromStringAndSize] at hres
    split at hres
    · simp at hres
      rw [← hres, readBytes_length]
      exact hdec
    · simp at hres

end Shared

/-! ## The block size table -/

/-- C1: on each of the block size ids 4, 5, 6 and 7 the function
`LZ4S_GetBlockSize_FromBlockId` returns `1 << (8 + 2*id)`, that is 65536,
262144, 1048576 and 4194304 in turn, and the value is a positive power of
two. -/
theorem blockSize_standard_ids (id : Int) (h : id = 4 ∨ id = 5 ∨ id = 6 ∨ id = 7) :
    LZ4S_GetBlockSize_FromBlockId id = ((1 <<< (8 + 2 * id.toNat) : Nat) : Int)
    ∧ (id = 4 → LZ4S_GetBlockSize_FromBlockId id = 65536)
    ∧ (id = 5 → LZ4S_GetBlockSize_FromBlockId id = 262144)
    ∧ (id = 6 → LZ4S_GetBlockSize_FromBlockId id = 1048576)
    ∧ (id = 7 → LZ4S_GetBlockSize_FromBlockId id = 4194304)
    ∧ 0 < LZ4S_GetBlockSize_FromBlockId id
    ∧ ∃ k : Nat, LZ4S_GetBlockSize_FromBlockId id = 2 ^ k := by
  rcases h with h | h | h | h <;> subst h
  · exact ⟨by decide, by decide, by decide, by decide, by decide, by decide, 16, by decide⟩
  · exact ⟨by decide, by decide, by decide, by decide, by decide, by decide, 18, by decide⟩
  · exact ⟨by decide, by decide, by decide, by decide, by decide, by decide, 20, by decide⟩
  · exact ⟨by decide, by decide, by decide, by decide, by decide, by decide, 22, by decide⟩

/-- Witness for C1 at block size id 7. -/
theorem blockSize_standard_ids_witness :
    LZ4S_GetBlockSize_FromBlockId 7 = 4194304 ∧ 0 < LZ4S_GetBlockSize_FromBlockId 7 :=
  have h := blockSize_standard_ids 7 (by decide)
  ⟨h.2.2.2.2.1 rfl, h.2.2.2.2.2.1⟩

/-- C10 (as stated, refuted): a `blkID` of 12 does not give a zero-sized
destination.  The shift count is then 32, which C leaves undefined; the
compiled shift takes the count modulo 32, so the lookup returns 1 and
`pass_lz4f_decompress` allocates 1 byte. -/
theorem blockSize_id_12_not_zero :
    wrapInt32 (8 + wrapInt32 (2 * 12)) = 32
    ∧ LZ4S_GetBlockSize_FromBlockId 12 = 1
    ∧ LZ4S_GetBlockSize_FromBlockId 12 ≠ 0
    ∧ decompress_dest_size (some 12) = 1
    ∧ decompress_dest_size (some 12) ≠ 0 :=
  ⟨by decide, by decide, by decide, by decide, by decide⟩

/-- C10 (amended): with 32 bit `int` arithmetic `LZ4S_GetBlockSize_FromBlockId id`
is the exact value `2^(8+2*id)` for every id from 0 to 11, that value stays
below `2^31`, and the function is strictly increasing on the range; at id 12
the exact value `2^32` no longer fits (it is 0 modulo `2^32`) and the shift
count is 32, outside the counts 0..31 for which C defines the shift. -/
theorem blockSize_int32_range :
    (∀ id : Int, 0 ≤ id → id ≤ 11 →
        LZ4S_GetBlockSize_FromBlockId id = 2 ^ (8 + 2 * id.toNat)
        ∧ (2 : Int) ^ (8 + 2 * id.toNat) < 2 ^ 31)
    ∧ (∀ i j : Int, 0 ≤ i → i < j → j ≤ 11 →
        LZ4S_GetBlockSize_FromBlockId i < LZ4S_GetBlockSize_FromBlockId j)
    ∧ (2 : Int) ^ (8 + 2 * 12) = 2 ^ 32
    ∧ ¬ ((2 : Int) ^ (8 + 2 * 12) < 2 ^ 31)
    ∧ (2 : Int) ^ (8 + 2 * 12) % 2 ^ 32 = 0
    ∧ wrapInt32 (8 + wrapInt32 (2 * 12)) = 32
    ∧ ¬ (wrapInt32 (8 + wrapInt32 (2 * 12)) < 32) := by
  refine ⟨?_, ?_, by decide, by decide, by decide, by decide, by decide⟩
  · intro id h0 h1
    refine ⟨blockSize_exact id h0 h1, ?_⟩
    interval_cases id <;> decide
  · intro i j h0 hij h1
    have hi : i ≤ 11 := by omega
    have hj : 0 ≤ j := by omega
    interval_cases i <;> interval_cases j <;> first | omega | decide

/-- Witness for the amended C10 at the ids 10 and 11. -/
theorem blockSize_int32_range_witness :
    LZ4S_GetBlockSize_FromBlockId 11 = 2 ^ 30
    ∧ LZ4S_GetBlockSize_FromBlockId 10 < LZ4S_GetBlockSize_FromBlockId 11 :=
  ⟨(blockSize_int32_range.1 11 (by decide) (by decide)).1,
   blockSize_int32_range.2.1 10 11 (by decide) (by decide) (by decide)⟩

/-- C2 (as stated, refuted): at id 3, outside 4..7, the lookup returns the
capacity 16384, and `pass_lz4f_decompress` called with `blkID = 3` on a small
frame returns its normal dictionary; no error is raised for the id. -/
theorem blockSize_unchecked_id_3 :
    LZ4S_GetBlockSize_FromBlockId 3 = 16384
    ∧ decompress_dest_size (some 3) = 16384
    ∧ (pass_lz4f_decompress storedCodec (storedHeader ++ [1, 2, 3]) 0 (some 3)).1
        = .PyDict [("decomp", .PyBytes [1, 2, 3]), ("next", .PyInt 0)] :=
  ⟨by decide, by decide, rfl⟩

/-- C2 (amended): the lookup has no failure path.  For every id from 0 to 11,
inside or outside 4..7, `LZ4S_GetBlockSize_FromBlockId` returns the capacity
`2^(8+2*id)`; `pass_lz4f_decompress` called with such a `blkID` hands a
destination of that capacity to the decoder and returns `None` exactly when
the decoder reports an error. -/
theorem blockSize_no_id_check {Ctx : Type} (L : LZ4F Ctx) (source : List Byte) (dCtx : Ctx)
    (id : Int) (h0 : 0 ≤ id) (h1 : id ≤ 11) :
    LZ4S_GetBlockSize_FromBlockId id = 2 ^ (8 + 2 * id.toNat)
    ∧ decompress_dest_size (some id) = 2 ^ (8 + 2 * id.toNat)
    ∧ ((pass_lz4f_decompress L source dCtx (some id)).1 = .Py_None ↔
        L.LZ4F_isError (L.LZ4F_decompress dCtx (2 ^ (8 + 2 * id.toNat)) source).ret = true) := by
  refine ⟨blockSize_exact id h0 h1, dest_size_exact id h0 h1, ?_⟩
  rw [pass_lz4f_decompress_eq, dest_size_exact id h0 h1]
  split <;> simp_all

/-- Witness for the amended C2 at id 0, which is outside 4..7. -/
theorem blockSize_no_id_check_witness :
    LZ4S_GetBlockSize_FromBlockId 0 = 256 ∧ decompress_dest_size (some 0) = 256 :=
  have h := blockSize_no_id_check storedCodec [] 0 0 (by decide) (by decide)
  ⟨h.1, h.2.1⟩

/-! ## `compressFrame` -/

/-- C4: when the frame encoder reports a size (a value that fits `Py_ssize_t`,
which an LZ4F error code does not), `py_lz4f_compressFrame` returns a bytes
object whose length is that size and whose content is the first that many
bytes of the scratch buffer; it is shorter than the scratch buffer of
`LZ4F_compressFrameBound` bytes whenever the reported size is smaller than
the bound, and never longer than the bound when the size is at most the
bound. -/
theorem compressFrame_returns_written {Ctx : Type} (L : LZ4F Ctx) (source : List Byte)
    (hsize : (L.LZ4F_compressFrame (L.LZ4F_compressFrameBound source.length) source).ret
      < 2 ^ 63) :
    ∃ bs : List Byte,
      py_lz4f_compressFrame L source = .PyBytes bs
      ∧ bs.length
          = (L.LZ4F_compressFrame (L.LZ4F_compressFrameBound source.length) source).ret
      ∧ (∀ (i : Nat) (h : i < bs.length),
          bs[i] = (L.LZ4F_compressFrame (L.LZ4F_compressFrameBound source.length) source).dest i)
      ∧ ((L.LZ4F_compressFrame (L.LZ4F_compressFrameBound source.length) source).ret
            ≤ L.LZ4F_compressFrameBound source.length →
          bs.length ≤ L.LZ4F_compressFrameBound source.length)
      ∧ ((L.LZ4F_compressFrame (L.LZ4F_compressFrameBound source.length) source).ret
            < L.LZ4F_compressFrameBound source.length →
          bs.length < L.LZ4F_compressFrameBound source.length) := by
  refine ⟨readBytes
    (L.LZ4F_compressFrame (L.LZ4F_compressFrameBound source.length) source).dest
    (L.LZ4F_compressFrame (L.LZ4F_compressFrameBound source.length) source).ret,
    ?_, readBytes_length _ _, ?_, ?_, ?_⟩
  · simp only [py_lz4f_compressFrame, PyBytes_FromStringAndSize, if_pos hsize]
  · intro i h
    exact readBytes_getElem _ _ i h
  · intro h
    rw [readBytes_length]
    exact h
  · intro h
    rw [readBytes_length]
    exact h

/-- Witness for C4: the stand-in codec on three bytes. -/
theorem compressFrame_returns_written_witness :
    ∃ bs : List Byte,
      py_lz4f_compressFrame storedCodec [1, 2, 3] = .PyBytes bs ∧ bs.length = 10 := by
  obtain ⟨bs, h1, h2, _⟩ := compressFrame_returns_written storedCodec [1, 2, 3] (by decide)
  exact ⟨bs, h1, h2⟩

/-! ## `decompressFrame` -/

/-- C5: on a successful call (the decoder reports no error, and its updated
destination size fits `Py_ssize_t`, as it does whenever the decoder reports
no more than the capacity it was handed) `pass_lz4f_decompress` returns a
dictionary of exactly two fields: `decomp`, whose length is the updated
destination size of the decoder and whose content is the first that many
bytes of the destination buffer, and `next`, the return value of the decoder;
the updated source size (the number of input bytes consumed) is not part of
the result. -/
theorem decompress_result_fields {Ctx : Type} (L : LZ4F Ctx) (source : List Byte) (dCtx : Ctx)
    (blkID : Option Int)
    (hok : L.LZ4F_isError
      (L.LZ4F_decompress dCtx (decompress_dest_size blkID) source).ret = false)
    (hsize : (L.LZ4F_decompress dCtx (decompress_dest_size blkID) source).dstSize < 2 ^ 63) :
    ∃ bs : List Byte,
      (pass_lz4f_decompress L source dCtx blkID).1
        = .PyDict [("decomp", .PyBytes bs),
            ("next", .PyInt (L.LZ4F_decompress dCtx (decompress_dest_size blkID) source).ret)]
      ∧ bs.length = (L.LZ4F_decompress dCtx (decompress_dest_size blkID) source).dstSize
      ∧ ∀ (i : Nat) (h : i < bs.length),
          bs[i] = (L.LZ4F_decompress dCtx (decompress_dest_size blkID) source).dest i := by
  refine ⟨readBytes
    (L.LZ4F_decompress dCtx (decompress_dest_size blkID) source).dest
    (L.LZ4F_decompress dCtx (decompress_dest_size blkID) source).dstSize,
    ?_, readBytes_length _ _, fun i h => readBytes_getElem _ _ i h⟩
  rw [pass_lz4f_decompress_eq]
  simp only [hok, PyBytes_FromStringAndSize, if_pos hsize]
  simp

/-- Witness for C5: the stand-in decoder consumes all ten input bytes, writes
three and returns 0, and `next` is that 0. -/
theorem decompress_result_fields_witness :
    (storedCodec.LZ4F_decompress 0 (decompress_dest_size none)
        (storedHeader ++ [1, 2, 3])).srcSize = 10
    ∧ ∃ bs : List Byte,
      (pass_lz4f_decompress storedCodec (storedHeader ++ [1, 2, 3]) 0 none).1
        = .PyDict [("decomp", .PyBytes bs), ("next", .PyInt 0)]
      ∧ bs.length = 3 := by
  obtain ⟨bs, h1, h2, _⟩ :=
    decompress_result_fields storedCodec (storedHeader ++ [1, 2, 3]) 0 none (by decide)
      (by decide)
  exact ⟨by decide, bs, h1, h2⟩

/-- C6: given a decoder that reports no more bytes written than the capacity
it was handed, the bytes `pass_lz4f_decompress` returns under `decomp` never
exceed the size the call allocated; for a `blkID` b from 0 to 11 that size is
`2^(8+2*b)`, and with the default `blkID` of 7 it is 4194304. -/
theorem decomp_within_capacity {Ctx : Type} (L : LZ4F Ctx) (source : List Byte) (dCtx : Ctx)
    (blkID : Option Int) (bs : List Byte)
    (hdec : (L.LZ4F_decompress dCtx (decompress_dest_size blkID) source).dstSize
      ≤ decompress_dest_size blkID)
    (hres : PyDict_GetItemString (pass_lz4f_decompress L source dCtx blkID).1 "decomp"
      = some (.PyBytes bs)) :
    bs.length ≤ decompress_dest_size blkID
    ∧ (∀ b : Int, blkID = some b → 0 ≤ b → b ≤ 11 → bs.length ≤ 2 ^ (8 + 2 * b.toNat))
    ∧ (blkID = none → bs.length ≤ 4194304) := by
  have hlen := decomp_length_le L source dCtx blkID bs hdec hres
  refine ⟨hlen, ?_, ?_⟩
  · intro b hb h0 h1
    rw [hb, dest_size_exact b h0 h1] at hlen
    exact hlen
  · intro hb
    rw [hb, dest_size_default] at hlen
    exact hlen

/-- Witness for C6: the stand-in decoder under the default `blkID`. -/
theorem decomp_within_capacity_witness :
    PyDict_GetItemString
        (pass_lz4f_decompress storedCodec (storedHeader ++ [1, 2, 3]) 0 none).1 "decomp"
      = some (.PyBytes [1, 2, 3])
    ∧ ([1, 2, 3] : List Byte).length ≤ 4194304 :=
  ⟨rfl,
   (decomp_within_capacity storedCodec (storedHeader ++ [1, 2, 3]) 0 none [1, 2, 3]
      (by decide) (by rfl)).2.2 rfl⟩

/-- C9 (as stated, refuted): a frame whose descriptor names block size id 4 is
decoded under the default `blkID` with a destination of 4194304 bytes, not
`1 << (8 + 2*4)` = 65536; the decoder stand-in returns the capacity it was
handed, which comes back under `next`. -/
theorem dest_capacity_ignores_descriptor :
    (py_lz4f_getFrameInfo capacityProbe (frameMagic ++ [0x60, 0x40, 0x82, 0, 0, 0, 0]) 0).1
      = .PyDict [("blkSize", .PyInt 4), ("blkMode", .PyInt 1)]
    ∧ (pass_lz4f_decompress capacityProbe (frameMagic ++ [0x60, 0x40, 0x82, 0, 0, 0, 0]) 0
        none).1
      = .PyDict [("decomp", .PyBytes []), ("next", .PyInt 4194304)]
    ∧ (4194304 : Nat) ≠ 1 <<< (8 + 2 * 4) :=
  ⟨rfl, rfl, by decide⟩

/-- C9 (amended): the destination handed to the decoder is sized from the
`blkID` the caller supplies (7 when omitted), whatever the frame says: the
call is `LZ4F_decompress` on a destination of `decompress_dest_size blkID`
bytes, which is 4194304 by default and `2^(8+2*b)` for a `blkID` b from 0 to
11, and is at most `2^30` in every case. -/
theorem dest_capacity_from_blkID {Ctx : Type} (L : LZ4F Ctx) (source : List Byte) (dCtx : Ctx)
    (blkID : Option Int) :
    (pass_lz4f_decompress L source dCtx blkID).1 =
      (if L.LZ4F_isError (L.LZ4F_decompress dCtx (decompress_dest_size blkID) source).ret then
        .Py_None
      else
        .PyDict
          [("decomp", PyBytes_FromStringAndSize
              (L.LZ4F_decompress dCtx (decompress_dest_size blkID) source).dest
              (L.LZ4F_decompress dCtx (decompress_dest_size blkID) source).dstSize),
           ("next", .PyInt (L.LZ4F_decompress dCtx (decompress_dest_size blkID) source).ret)])
    ∧ decompress_dest_size none = 4194304
    ∧ (∀ b : Int, 0 ≤ b → b ≤ 11 → decompress_dest_size (some b) = 2 ^ (8 + 2 * b.toNat))
    ∧ decompress_dest_size blkID ≤ 2 ^ 30 := by
  refine ⟨?_, dest_size_default, dest_size_exact, decompress_dest_size_le blkID⟩
  rw [pass_lz4f_decompress_eq]
  split <;> rfl

/-- Witness for the amended C9: a `blkID` of 5 sizes the destination to 262144
bytes for a frame that names id 4. -/
theorem dest_capacity_from_blkID_witness :
    decompress_dest_size (some 5) = 262144 :=
  (dest_capacity_from_blkID capacityProbe (frameMagic ++ [0x60, 0x40, 0x82, 0, 0, 0, 0]) 0
    (some 5)).2.2.1 5 (by decide) (by decide)

/-! ## Error reporting -/

/-- C8: `py_lz4f_getFrameInfo` returns a dictionary only when the header parse
reported no error, and then its `blkSize` and `blkMode` are the `blockSizeID`
and `blockMode` of the parsed frame info; when the parse reports an error the
caller gets `None` and nothing of the frame info. -/
theorem getFrameInfo_descriptor {Ctx : Type} (L : LZ4F Ctx) (source : List Byte) (dCtx : Ctx) :
    (∀ items : List (String × PyObject Ctx),
        (py_lz4f_getFrameInfo L source dCtx).1 = .PyDict items →
        L.LZ4F_isError (L.LZ4F_getFrameInfo dCtx source).err = false
        ∧ items =
            [("blkSize", .PyInt (L.LZ4F_getFrameInfo dCtx source).frameInfo.blockSizeID),
             ("blkMode", .PyInt (L.LZ4F_getFrameInfo dCtx source).frameInfo.blockMode)])
    ∧ (L.LZ4F_isError (L.LZ4F_getFrameInfo dCtx source).err = false →
        (py_lz4f_getFrameInfo L source dCtx).1 =
          .PyDict
            [("blkSize", .PyInt (L.LZ4F_getFrameInfo dCtx source).frameInfo.blockSizeID),
             ("blkMode", .PyInt (L.LZ4F_getFrameInfo dCtx source).frameInfo.blockMode)])
    ∧ (L.LZ4F_isError (L.LZ4F_getFrameInfo dCtx source).err = true →
        (py_lz4f_getFrameInfo L source dCtx).1 = .Py_None) := by
  rw [py_lz4f_getFrameInfo_eq]
  refine ⟨?_, ?_, ?_⟩
  · intro items h
    split at h
    · simp at h
    · simp_all
  · intro h
    simp [h]
  · intro h
    simp [h]

/-- Witness for C8: two bytes are too few for the stand-in parser, which
reports an error and leaves 170 in the frame info; the caller gets `None`.  A
whole header gives the parsed fields. -/
theorem getFrameInfo_descriptor_witness :
    (storedCodec.LZ4F_getFrameInfo 0 [0x04, 0x22]).frameInfo.blockSizeID = 170
    ∧ (py_lz4f_getFrameInfo storedCodec [0x04, 0x22] 0).1 = .Py_None
    ∧ (py_lz4f_getFrameInfo storedCodec storedHeader 0).1
        = .PyDict [("blkSize", .PyInt 7), ("blkMode", .PyInt 1)] :=
  ⟨rfl,
   (getFrameInfo_descriptor storedCodec [0x04, 0x22] 0).2.2 rfl,
   (getFrameInfo_descriptor storedCodec storedHeader 0).2.1 rfl⟩

/-- Reading back the memory that holds a list gives the list. -/
theorem readBytes_memOf (l : List Byte) : readBytes (memOf l) l.length = l := by
  apply List.ext_getElem
  · simp [readBytes]
  · intro i h1 h2
    simp [readBytes, memOf, List.getD_eq_getElem?_getD, List.getElem?_eq_getElem h2]

/-- The frame `py_lz4f_compressFrame` returns with the stand-in codec. -/
theorem stored_compressFrame (S : List Byte) (hS : S.length + 7 < 2 ^ 63) :
    py_lz4f_compressFrame storedCodec S = .PyBytes (storedHeader ++ S) := by
  have hlen : (storedHeader ++ S).length = S.length + 7 := by
    simp [storedHeader, frameMagic]
  have hread := readBytes_memOf (storedHeader ++ S)
  rw [hlen] at hread
  have hS2 : S.length + 7 < 9223372036854775808 := by
    norm_num at hS
    omega
  simp only [py_lz4f_compressFrame, storedCodec, PyBytes_FromStringAndSize]
  rw [if_neg (Nat.lt_irrefl _)]
  simp only [hread]
  rw [if_pos (by norm_num; omega)]

/-- What `pass_lz4f_decompress` returns for such a frame with the stand-in
codec, a fresh context and the default `blkID`. -/
theorem stored_decompress_default (S : List Byte) (hS : S.length < 2 ^ 63) :
    (pass_lz4f_decompress storedCodec (storedHeader ++ S) 0 none).1
      = .PyDict [("decomp", .PyBytes (S.take 4194304)),
          ("next", .PyInt (S.length - min 4194304 S.length))] := by
  have hhdr : hasHeader (storedHeader ++ S) = true := by
    simp [hasHeader, storedHeader, frameMagic]
  have hdrop : (storedHeader ++ S).drop 7 = S := by
    simp [storedHeader, frameMagic]
  have hS2 : S.length < 9223372036854775808 := by
    norm_num at hS
    omega
  have htake : List.take (min 4194304 S.length) S = List.take 4194304 S := by
    rcases Nat.le_total 4194304 S.length with h | h
    · rw [Nat.min_eq_left h]
    · rw [Nat.min_eq_right h, List.take_of_length_le h, List.take_of_length_le (le_refl _)]
  have hread := readBytes_memOf (S.take 4194304)
  rw [List.length_take] at hread
  have herr : ¬ (18446744073709551552 < S.length - min 4194304 S.length) := by omega
  have hlt : min 4194304 S.length < 9223372036854775808 := by omega
  rw [pass_lz4f_decompress_eq, dest_size_default]
  simp [storedCodec, hhdr, hdrop, PyBytes_FromStringAndSize, herr, hlt, htake, hread]

/-- With the stand-in codec, a fresh context and the default `blkID`, a
sequence of 4194305 bytes comes back one byte short. -/
theorem stored_decompress_short (S : List Byte) (hS : S.length = 4194305) :
    ∃ bs : List Byte,
      PyDict_GetItemString
          (pass_lz4f_decompress storedCodec (storedHeader ++ S) 0 none).1 "decomp"
        = some (.PyBytes bs)
      ∧ bs.length = 4194304
      ∧ bs ≠ S := by
  have hlen : (S.take 4194304).length = 4194304 := by
    rw [List.length_take, hS]
    rfl
  refine ⟨S.take 4194304, ?_, hlen, ?_⟩
  · rw [stored_decompress_default S (by omega)]
    rfl
  · intro h
    have h2 := congrArg List.length h
    rw [hlen, hS] at h2
    exact absurd h2 (by decide)

/-- C3 (as stated, refuted): a sequence of 4194305 bytes does not come back.
With a fresh context and the default `blkID` the destination holds 4194304
bytes, so with the stand-in codec `decomp` is one byte short of the input;
and whatever the codec, a decoder that keeps within the destination it was
handed cannot make a default call return the 4194305 bytes. -/
theorem roundtrip_fails_above_capacity :
    py_lz4f_createDecompressionContext storedCodec = .PyCObject 0
    ∧ py_lz4f_compressFrame storedCodec (List.replicate 4194305 0)
        = .PyBytes (storedHeader ++ List.replicate 4194305 0)
    ∧ (∃ bs : List Byte,
        PyDict_GetItemString
            (pass_lz4f_decompress storedCodec (storedHeader ++ List.replicate 4194305 0) 0
              none).1 "decomp"
          = some (.PyBytes bs)
        ∧ bs.length = 4194304
        ∧ bs ≠ List.replicate 4194305 0)
    ∧ ∀ (Ctx : Type) (L : LZ4F Ctx) (frame : List Byte) (dCtx : Ctx),
        (L.LZ4F_decompress dCtx (decompress_dest_size none) frame).dstSize
          ≤ decompress_dest_size none →
        PyDict_GetItemString (pass_lz4f_decompress L frame dCtx none).1 "decomp"
          ≠ some (.PyBytes (List.replicate 4194305 0)) :=
  have hS : (List.replicate 4194305 (0 : Byte)).length = 4194305 := List.length_replicate _ _
  ⟨rfl, stored_compressFrame _ (by rw [hS]; norm_num), stored_decompress_short _ hS,
   fun _ L frame dCtx hdec hres => by
    have hle := decomp_length_le L frame dCtx none _ hdec hres
    rw [hS, dest_size_default] at hle
    exact absurd hle (by decide)⟩

/-- C3 (amended): round trip within the default capacity.  For every byte
sequence S of at most 4194304 bytes: when creating the decompression context
succeeds, the encoder reports a size, and the decoder, handed the frame
written for S and a destination of at least `S.length` bytes on the fresh
context, regenerates S without error, then `py_lz4f_compressFrame` returns a
frame and `pass_lz4f_decompress` on that frame, the fresh context and the
default `blkID` returns S under `decomp`. -/
theorem roundtrip_within_default_capacity {Ctx : Type} (L : LZ4F Ctx) (S : List Byte)
    (hlen : S.length ≤ 4194304)
    (hfresh : L.LZ4F_isError (L.LZ4F_createDecompressionContext L.LZ4F_VERSION).1 = false)
    (henc : (L.LZ4F_compressFrame (L.LZ4F_compressFrameBound S.length) S).ret < 2 ^ 63)
    (hdec : ∀ cap : Nat, S.length ≤ cap →
      L.LZ4F_isError (L.LZ4F_decompress (L.LZ4F_createDecompressionContext L.LZ4F_VERSION).2 cap
          (readBytes (L.LZ4F_compressFrame (L.LZ4F_compressFrameBound S.length) S).dest
            (L.LZ4F_compressFrame (L.LZ4F_compressFrameBound S.length) S).ret)).ret = false
      ∧ (L.LZ4F_decompress (L.LZ4F_createDecompressionContext L.LZ4F_VERSION).2 cap
          (readBytes (L.LZ4F_compressFrame (L.LZ4F_compressFrameBound S.length) S).dest
            (L.LZ4F_compressFrame (L.LZ4F_compressFrameBound S.length) S).ret)).dstSize
          = S.length
      ∧ readBytes (L.LZ4F_decompress (L.LZ4F_createDecompressionContext L.LZ4F_VERSION).2 cap
          (readBytes (L.LZ4F_compressFrame (L.LZ4F_compressFrameBound S.length) S).dest
            (L.LZ4F_compressFrame (L.LZ4F_compressFrameBound S.length) S).ret)).dest
          S.length = S) :
    ∃ (dCtx : Ctx) (frame : List Byte),
      py_lz4f_createDecompressionContext L = .PyCObject dCtx
      ∧ py_lz4f_compressFrame L S = .PyBytes frame
      ∧ PyDict_GetItemString (pass_lz4f_decompress L frame dCtx none).1 "decomp"
          = some (.PyBytes S) := by
  refine ⟨(L.LZ4F_createDecompressionContext L.LZ4F_VERSION).2,
    readBytes (L.LZ4F_compressFrame (L.LZ4F_compressFrameBound S.length) S).dest
      (L.LZ4F_compressFrame (L.LZ4F_compressFrameBound S.length) S).ret, ?_, ?_, ?_⟩
  · simp [py_lz4f_createDecompressionContext, PyCObject_FromVoidPtr, hfresh]
  · simp only [py_lz4f_compressFrame, PyBytes_FromStringAndSize, if_pos henc]
  · obtain ⟨hok, hsize, hbytes⟩ := hdec 4194304 hlen
    have hlt : S.length < 2 ^ 63 := by omega
    rw [pass_lz4f_decompress_eq, dest_size_default]
    simp only [hok, hsize, PyBytes_FromStringAndSize, if_pos hlt, hbytes]
    rfl

/-- Witness for the amended C3: three bytes through the stand-in codec. -/
theorem roundtrip_within_default_capacity_witness :
    ∃ (dCtx : Nat) (frame : List Byte),
      py_lz4f_createDecompressionContext storedCodec = .PyCObject dCtx
      ∧ py_lz4f_compressFrame storedCodec [1, 2, 3] = .PyBytes frame
      ∧ PyDict_GetItemString (pass_lz4f_decompress storedCodec frame dCtx none).1 "decomp"
          = some (.PyBytes [1, 2, 3]) := by
  have hframe :
      readBytes
        (storedCodec.LZ4F_compressFrame (storedCodec.LZ4F_compressFrameBound 3) [1, 2, 3]).dest
        (storedCodec.LZ4F_compressFrame (storedCodec.LZ4F_compressFrameBound 3) [1, 2, 3]).ret
        = storedHeader ++ [1, 2, 3] := by
    decide
  have hctx : (storedCodec.LZ4F_createDecompressionContext storedCodec.LZ4F_VERSION).2 = 0 := rfl
  refine roundtrip_within_default_capacity storedCodec [1, 2, 3] (by decide) rfl (by decide) ?_
  intro cap hcap
  have hmin : min cap 3 = 3 := Nat.min_eq_right hcap
  have hcast : ([1, 2, 3] : List Byte).length = 3 := rfl
  have hhdr : hasHeader (storedHeader ++ [1, 2, 3]) = true := by decide
  have hdrop : (storedHeader ++ ([1, 2, 3] : List Byte)).drop 7 = [1, 2, 3] := by decide
  rw [hcast, hframe, hctx]
  simp only [storedCodec, hhdr, hdrop]
  simp [hmin]
  decide

end PythonLz4f
